import Mathlib

/-
Verification of the Item Store service (app/models.py and app/server.py).

The Python code is shallowly embedded:
  * Python values that flow through an Item record are modelled by `Value`
    (string, boolean, integer, None).
  * A serialized record (the dict produced by `Item.serialize` and validated
    by the cerberus schema) is modelled by `Dict`; `unknown` records whether
    the dict carries keys outside the schema (cerberus rejects unknown keys
    by default).
  * The Redis keyspace is an association list from `RKey` to `RVal`.
    `save` writes pickled records under the integer id, and the
    auto-increment counter lives under the string key 'index'
    (constructor `RKey.idx`).
  * Raising `DataValidationError` is modelled by `Except.error`; other
    runtime failures that can occur while loading a stored value
    (pickle failure on the counter value, `KeyError`/`int()` failure on a
    malformed record) are modelled by `Err.loadFailure`.
  * The Flask handlers become pure functions from the request data and the
    store to a response (status and message) and the resulting store.
    JSON response bodies and the Location header are not modelled; only the
    abort messages are kept.
-/

namespace ItemStore

/-- A Python value stored in an Item field or a serialized record. -/
inductive Value where
  | vstr (s : String)
  | vbool (b : Bool)
  | vint (n : Int)
  | vnone
deriving DecidableEq, Repr

/-- A serialized record: the Python dict handled by `Item.serialize`,
`Item.deserialize` and the cerberus validator.  Each schema field is
`Option Value` (`none` when the key is absent); `unknown` is true when the
dict has keys outside the schema (cerberus rejects those). -/
structure Dict where
  id : Option Value
  name : Option Value
  price : Option Value
  available : Option Value
  unknown : Bool
deriving DecidableEq, Repr

/-- A Python object passed to `Item.deserialize`: either a dict or anything
else (None, a string, a list, ...), which fails the isinstance check. -/
inductive PyObj where
  | dict (d : Dict)
  | nonDict
deriving DecidableEq, Repr

/-- Exceptions raised by the model layer.  `dataValidation` is
`DataValidationError`; `loadFailure` stands for the other runtime errors
reachable only on malformed stores (unpickling the counter value,
`KeyError` on a record without an id). -/
inductive Err where
  | dataValidation
  | loadFailure
deriving DecidableEq, Repr

/-- The in-memory Item object (`Item.__init__` fields). -/
structure Item where
  id : Int
  name : Value
  price : Value
  available : Value
deriving DecidableEq, Repr

/-- `Item(id)` with the remaining constructor defaults:
name=None, price=None, available=True. -/
def Item.mkDefault (id : Int) : Item :=
  ⟨id, Value.vnone, Value.vnone, Value.vbool true⟩

/-- The three public query attributes of `Item.__find_by`. -/
inductive Attr where
  | name
  | price
  | available
deriving DecidableEq, Repr

/-- `data[attribute]` for the query attributes. -/
def Dict.attr (d : Dict) (a : Attr) : Option Value :=
  match a with
  | Attr.name => d.name
  | Attr.price => d.price
  | Attr.available => d.available

/-- A Redis key: either the auto-increment counter key 'index' or an
integer item id. -/
inductive RKey where
  | idx
  | key (n : Int)
deriving DecidableEq, Repr

/-- A Redis value: the integer counter or a pickled record. -/
inductive RVal where
  | count (n : Int)
  | blob (d : Dict)
deriving DecidableEq, Repr

/-- The Redis keyspace, as an association list in iteration order. -/
abbrev Store := List (RKey × RVal)

/-- `redis.get(key)`. -/
def Redis.get : Store → RKey → Option RVal
  | [], _ => none
  | (k0, v0) :: t, k => if k0 = k then some v0 else Redis.get t k

/-- `redis.set(key, value)`: replace the value when the key is present,
append it otherwise. -/
def Redis.set : Store → RKey → RVal → Store
  | [], k, v => [(k, v)]
  | (k0, v0) :: t, k, v =>
      if k0 = k then (k, v) :: t else (k0, v0) :: Redis.set t k v

/-- `redis.delete(key)`. -/
def Redis.del : Store → RKey → Store
  | [], _ => []
  | (k0, v0) :: t, k =>
      if k0 = k then Redis.del t k else (k0, v0) :: Redis.del t k

/-- `redis.exists(key)`. -/
def Redis.existsKey (s : Store) (k : RKey) : Bool :=
  (Redis.get s k).isSome

/-- The current value of the 'index' counter (0 when the key is absent,
as Redis INCR treats a missing key). -/
def counterVal (s : Store) : Int :=
  match Redis.get s RKey.idx with
  | some (RVal.count n) => n
  | _ => 0

/-- `redis.incr('index')`: increment the counter and return the new value
together with the updated store.  (Real Redis INCR errors when the key
holds a non-integer value; theorems that rely on the counter therefore
assume `idxOk`.) -/
def Redis.incr (s : Store) : Int × Store :=
  (counterVal s + 1, Redis.set s RKey.idx (RVal.count (counterVal s + 1)))

/-- The 'index' key, when present, holds an integer counter (the states on
which the `Redis.incr` model is exact). -/
def idxOk (s : Store) : Bool :=
  match Redis.get s RKey.idx with
  | some (RVal.count _) => true
  | none => true
  | some _ => false

/-- cerberus check for the optional integer field `id`. -/
def okInt : Option Value → Bool
  | none => true
  | some (Value.vint _) => true
  | some _ => false

/-- cerberus check for a required string field. -/
def okStr : Option Value → Bool
  | some (Value.vstr _) => true
  | _ => false

/-- cerberus check for a required boolean field. -/
def okBool : Option Value → Bool
  | some (Value.vbool _) => true
  | _ => false

/-- `Item.__validator.validate(data)` for the schema
id: integer, name: required string, price: required string,
available: required boolean; unknown keys are rejected. -/
def validate (d : Dict) : Bool :=
  okInt d.id && okStr d.name && okStr d.price && okBool d.available && !d.unknown

/-- `Item.serialize`. -/
def Item.serialize (it : Item) : Dict :=
  ⟨some (Value.vint it.id), some it.name, some it.price, some it.available, false⟩

/-- `Item.deserialize`: on a dict passing validation, set name, price and
available from the data (the id field is untouched); otherwise raise
`DataValidationError`. -/
def Item.deserialize (it : Item) (data : PyObj) : Except Err Item :=
  match data with
  | PyObj.dict d =>
      if validate d then
        Except.ok { it with
          name := d.name.getD Value.vnone,
          price := d.price.getD Value.vnone,
          available := d.available.getD Value.vnone }
      else Except.error Err.dataValidation
  | PyObj.nonDict => Except.error Err.dataValidation

/-- `Item.save`: raise when name is None, assign a fresh id from the
counter when the id is 0, then write the pickled record under key=id. -/
def Item.save (it : Item) (s : Store) : Except Err (Item × Store) :=
  if it.name = Value.vnone then Except.error Err.dataValidation
  else if it.id = 0 then
    let n := (Redis.incr s).1
    let s1 := (Redis.incr s).2
    let it2 := { it with id := n }
    Except.ok (it2, Redis.set s1 (RKey.key it2.id) (RVal.blob (Item.serialize it2)))
  else
    Except.ok (it, Redis.set s (RKey.key it.id) (RVal.blob (Item.serialize it)))

/-- `Item.delete`: remove the key equal to the item id. -/
def Item.delete (it : Item) (s : Store) : Store :=
  Redis.del s (RKey.key it.id)

/-- `Item.remove_all` (`redis.flushall()`). -/
def Item.remove_all (_ : Store) : Store := []

/-- `Item(data['id']).deserialize(data)`, the loading step shared by
`find`, `all` and `__find_by`.  A record without an integer id fails
(`KeyError` or a failing `int()` coercion). -/
def itemFromData (d : Dict) : Except Err Item :=
  match d.id with
  | some (Value.vint n) => Item.deserialize (Item.mkDefault n) (PyObj.dict d)
  | _ => Except.error Err.loadFailure

/-- `Item.find(item_id)`: `redis.exists` then `redis.get` is collapsed into
one lookup; an absent key yields None, a present record is loaded
(re-raising `DataValidationError` when it fails validation). -/
def Item.find (item_id : Int) (s : Store) : Except Err (Option Item) :=
  match Redis.get s (RKey.key item_id) with
  | none => Except.ok none
  | some (RVal.count _) => Except.error Err.loadFailure
  | some (RVal.blob d) => (itemFromData d).map some

/-- `Item.all`: scan every key in iteration order, skip the 'index' key,
and load each record; the first failing record aborts the scan. -/
def Item.all : Store → Except Err (List Item)
  | [] => Except.ok []
  | (RKey.idx, _) :: t => Item.all t
  | (RKey.key _, RVal.blob d) :: t => do
      let it ← itemFromData d
      let rest ← Item.all t
      Except.ok (it :: rest)
  | (RKey.key _, RVal.count _) :: _ => Except.error Err.loadFailure

/-- Python `value.lower()` applied only to strings: `str.lower` on the
Python 2 byte strings used here lowercases only ASCII letters, which is
`Char.toLower` mapped over the characters (the unfolded form of
`String.toLower`). -/
def Value.lower : Value → Value
  | Value.vstr s => Value.vstr (String.mk (s.data.map Char.toLower))
  | v => v

/-- The scan loop of `Item.__find_by` with the search criterion already
lowercased: skip 'index', compare the lowercased attribute against the
criterion, and load the matching records in iteration order. -/
def findByAux (a : Attr) (crit : Value) : Store → Except Err (List Item)
  | [] => Except.ok []
  | (RKey.idx, _) :: t => findByAux a crit t
  | (RKey.key _, RVal.blob d) :: t =>
      match Dict.attr d a with
      | none => Except.error Err.loadFailure
      | some w =>
          if Value.lower w = crit then do
            let it ← itemFromData d
            let rest ← findByAux a crit t
            Except.ok (it :: rest)
          else findByAux a crit t
  | (RKey.key _, RVal.count _) :: _ => Except.error Err.loadFailure

/-- `Item.__find_by(attribute, value)`. -/
def Item.find_by (a : Attr) (value : Value) (s : Store) : Except Err (List Item) :=
  findByAux a (Value.lower value) s

/-- `Item.find_by_name`. -/
def Item.find_by_name (v : Value) (s : Store) : Except Err (List Item) :=
  Item.find_by Attr.name v s

/-- `Item.find_by_price`. -/
def Item.find_by_price (v : Value) (s : Store) : Except Err (List Item) :=
  Item.find_by Attr.price v s

/-- `Item.find_by_availability`. -/
def Item.find_by_availability (v : Value) (s : Store) : Except Err (List Item) :=
  Item.find_by Attr.available v s

/-- A wellformed keyspace entry: the 'index' key holds the counter, and an
item key holds a pickled record that passes the schema, whose id field
equals the key and is nonzero.  Every state reachable through the service
satisfies this (ids are assigned from the counter starting at 1, and every
write goes through `serialize` after validation). -/
def entryOk : RKey × RVal → Bool
  | (RKey.idx, RVal.count _) => true
  | (RKey.idx, _) => false
  | (RKey.key k, RVal.blob d) =>
      validate d && decide (d.id = some (Value.vint k)) && decide (k ≠ 0)
  | (RKey.key _, _) => false

/-- The record stored under `key k`, if any, is a wellformed record for
that key (the part of wellformedness that a single lookup needs). -/
def recOkAt (s : Store) (k : Int) : Bool :=
  match Redis.get s (RKey.key k) with
  | none => true
  | some v => entryOk (RKey.key k, v)

/-- Run a sequence of `save` calls, collecting the ids assigned from the
auto-increment counter (the saves whose input id was 0); a failing save
leaves the store unchanged and assigns nothing. -/
def runSaves : List Item → Store → List Int × Store
  | [], s => ([], s)
  | it :: rest, s =>
      match Item.save it s with
      | Except.error _ => runSaves rest s
      | Except.ok (it2, s2) =>
          let r := runSaves rest s2
          (if it.id = 0 then it2.id :: r.1 else r.1, r.2)

/-
The HTTP layer (app/server.py).  A handler is a pure function from the
request data (Content-Type header, parsed body, form fields) and the store
to a response and the resulting store.  `Option PyObj` models
`request.get_json()`s result when the mimetype is JSON: `none` when the
body is absent or unparsable (Flask then raises BadRequest).
-/

/-- An HTTP response: status code and the error message carried by
`abort`/error handlers (JSON success bodies are not modelled). -/
structure Resp where
  status : Nat
  msg : String
deriving DecidableEq, Repr

/-- The `abort(404, ...)` / `NotFound` message of the handlers. -/
def notFoundMsg (item_id : Int) : String :=
  "Item with id \x27" ++ toString item_id ++ "\x27 was not found."

/-- The `abort(400, ...)` message of the purchase handler. -/
def notAvailableMsg (item_id : Int) : String :=
  "Item with id \x27" ++ toString item_id ++ "\x27 is not available."

/-- The `abort(415, ...)` message of `check_content_type`. -/
def contentTypeMsg : String :=
  "Content-Type must be application/json"

/-- Modelled from the spec: `app/custom_exceptions.py` and
`app/error_handlers.py` are imported by the server but are not in the
source tree.  Per the spec (section 7, "Validation failure → 400 with
message") and the test suite, a `DataValidationError` escaping a handler
becomes a 400 response; an unhandled load failure becomes a 500. -/
def errorResp : Err → Resp
  | Err.dataValidation => ⟨400, "Bad Request"⟩
  | Err.loadFailure => ⟨500, "Internal Server Error"⟩

/-- A `BadRequest` raised by Flask/werkzeug itself (missing header or form
field, unparsable JSON body). -/
def badRequestResp : Resp := ⟨400, "Bad Request"⟩

/-- Python truthiness of a field value (`if not item.available`). -/
def Value.truthy : Value → Bool
  | Value.vstr s => !s.isEmpty
  | Value.vbool b => b
  | Value.vint n => decide (n ≠ 0)
  | Value.vnone => false

/-- Flask `request.is_json` on a Content-Type (mimetype parameters such as
charset are not modelled). -/
def isJsonMime (ct : String) : Bool :=
  ct == "application/json" ||
    (ct.startsWith "application/" && ct.endsWith "+json")

/-- The shared tail of `create_items` once the payload dict has been
extracted: `Item()`, `deserialize`, `save`, 201 Created. -/
def createWith (data : PyObj) (s : Store) : Resp × Store :=
  match Item.deserialize (Item.mkDefault 0) data with
  | Except.error e => (errorResp e, s)
  | Except.ok item =>
      match Item.save item s with
      | Except.error e => (errorResp e, s)
      | Except.ok (_, s2) => (⟨201, ""⟩, s2)

/-- `create_items` (POST /items).  `ct` is the Content-Type header
(`none` when absent); `formData` gives the name and price form fields when
present; `body` is the JSON body when parsable.  A form submission builds
the payload from the form (a missing field raises BadRequest); otherwise
`request.get_json()` yields the body only when the mimetype is JSON, and
None (`PyObj.nonDict`) otherwise. -/
def create_items (ct : Option String) (formData : Option (String × String))
    (body : Option PyObj) (s : Store) : Resp × Store :=
  if ct = some "application/x-www-form-urlencoded" then
    match formData with
    | some (n, p) =>
        createWith (PyObj.dict ⟨none, some (Value.vstr n), some (Value.vstr p),
          some (Value.vbool true), false⟩) s
    | none => (badRequestResp, s)
  else
    match ct, body with
    | some c, some b => if isJsonMime c then createWith b s else createWith PyObj.nonDict s
    | _, _ => createWith PyObj.nonDict s

/-- `update_items` (PUT /items/{id}): `check_content_type('application/json')`
(415 on mismatch, BadRequest on a missing header), find (404 when absent),
deserialize the JSON body (400 on validation failure), force the id back to
the path id and save.  The MQTT publish is a side effect outside the store
and is not modelled. -/
def update_items (item_id : Int) (ct : Option String) (body : Option PyObj)
    (s : Store) : Resp × Store :=
  match ct with
  | none => (badRequestResp, s)
  | some c =>
      if c ≠ "application/json" then (⟨415, contentTypeMsg⟩, s)
      else
        match Item.find item_id s with
        | Except.error e => (errorResp e, s)
        | Except.ok none => (⟨404, notFoundMsg item_id⟩, s)
        | Except.ok (some item) =>
            match body with
            | none => (badRequestResp, s)
            | some data =>
                match Item.deserialize item data with
                | Except.error e => (errorResp e, s)
                | Except.ok it1 =>
                    match Item.save { it1 with id := item_id } s with
                    | Except.error e => (errorResp e, s)
                    | Except.ok (_, s2) => (⟨200, ""⟩, s2)

/-- `delete_items` (DELETE /items/{id}): find, delete when present,
204 in both cases. -/
def delete_items (item_id : Int) (s : Store) : Resp × Store :=
  match Item.find item_id s with
  | Except.error e => (errorResp e, s)
  | Except.ok none => (⟨204, ""⟩, s)
  | Except.ok (some item) => (⟨204, ""⟩, Item.delete item s)

/-- `purchase_items` (PUT /items/{id}/purchase).  The handler never reads
the Content-Type header, so `ct` is unused: 404 when the id is absent, 400
when the item is not available, otherwise set available to False, save and
return 200. -/
def purchase_items (_ct : String) (item_id : Int) (s : Store) : Resp × Store :=
  match Item.find item_id s with
  | Except.error e => (errorResp e, s)
  | Except.ok none => (⟨404, notFoundMsg item_id⟩, s)
  | Except.ok (some item) =>
      if Value.truthy item.available = false then
        (⟨400, notAvailableMsg item_id⟩, s)
      else
        match Item.save { item with available := Value.vbool false } s with
        | Except.error e => (errorResp e, s)
        | Except.ok (_, s2) => (⟨200, ""⟩, s2)

/-
Basic lemmas about the keyspace operations.
-/

theorem Redis.get_set_self (s : Store) (k : RKey) (v : RVal) :
    Redis.get (Redis.set s k v) k = some v := by
  induction s with
  | nil => simp [Redis.set, Redis.get]
  | cons p t ih =>
      obtain ⟨k0, v0⟩ := p
      by_cases h : k0 = k
      · simp [Redis.set, h, Redis.get]
      · simp [Redis.set, h, Redis.get, ih]

theorem Redis.get_set_ne (s : Store) (k k2 : RKey) (v : RVal) (h : k2 ≠ k) :
    Redis.get (Redis.set s k v) k2 = Redis.get s k2 := by
  have hk : ¬ k = k2 := fun h2 => h h2.symm
  induction s with
  | nil => simp [Redis.set, Redis.get, hk]
  | cons p t ih =>
      obtain ⟨k0, v0⟩ := p
      by_cases h0 : k0 = k
      · subst h0
        simp [Redis.set, Redis.get, hk]
      · simp [Redis.set, h0, Redis.get, ih]

theorem Redis.get_del_self (s : Store) (k : RKey) :
    Redis.get (Redis.del s k) k = none := by
  induction s with
  | nil => simp [Redis.del, Redis.get]
  | cons p t ih =>
      obtain ⟨k0, v0⟩ := p
      by_cases h : k0 = k
      · simp [Redis.del, h, ih]
      · simp [Redis.del, h, Redis.get, ih]

theorem Redis.del_of_get_none (s : Store) (k : RKey)
    (h : Redis.get s k = none) : Redis.del s k = s := by
  induction s with
  | nil => simp [Redis.del]
  | cons p t ih =>
      obtain ⟨k0, v0⟩ := p
      by_cases h0 : k0 = k
      · simp [Redis.get, h0] at h
      · simp [Redis.get, h0] at h
        simp [Redis.del, h0, ih h]

theorem counterVal_set_key (s : Store) (n : Int) (v : RVal) :
    counterVal (Redis.set s (RKey.key n) v) = counterVal s := by
  unfold counterVal
  rw [Redis.get_set_ne]
  simp

theorem idxOk_set_key (s : Store) (n : Int) (v : RVal) :
    idxOk (Redis.set s (RKey.key n) v) = idxOk s := by
  unfold idxOk
  rw [Redis.get_set_ne]
  simp

theorem idxOk_set_count (s : Store) (n : Int) :
    idxOk (Redis.set s RKey.idx (RVal.count n)) = true := by
  unfold idxOk
  rw [Redis.get_set_self]

/-
Characterizations of `Item.save`.
-/

theorem save_of_name_none (it : Item) (s : Store) (h : it.name = Value.vnone) :
    Item.save it s = Except.error Err.dataValidation := by
  simp [Item.save, h]

theorem save_ok_zero (it : Item) (s : Store) (h1 : it.name ≠ Value.vnone)
    (h2 : it.id = 0) :
    Item.save it s = Except.ok ({ it with id := counterVal s + 1 },
      Redis.set (Redis.set s RKey.idx (RVal.count (counterVal s + 1)))
        (RKey.key (counterVal s + 1))
        (RVal.blob (Item.serialize { it with id := counterVal s + 1 }))) := by
  simp [Item.save, h1, h2, Redis.incr]

theorem save_ok_nonzero (it : Item) (s : Store) (h1 : it.name ≠ Value.vnone)
    (h2 : it.id ≠ 0) :
    Item.save it s =
      Except.ok (it, Redis.set s (RKey.key it.id) (RVal.blob (Item.serialize it))) := by
  simp [Item.save, h1, h2]

theorem save_isOk (it : Item) (s : Store) (h1 : it.name ≠ Value.vnone) :
    ∃ r, Item.save it s = Except.ok r := by
  by_cases h2 : it.id = 0
  · exact ⟨_, save_ok_zero it s h1 h2⟩
  · exact ⟨_, save_ok_nonzero it s h1 h2⟩

theorem counterVal_save (it it2 : Item) (s s2 : Store)
    (h : Item.save it s = Except.ok (it2, s2)) :
    (it.id = 0 → it2.id = counterVal s + 1 ∧ counterVal s2 = counterVal s + 1) ∧
    (it.id ≠ 0 → it2 = it ∧ counterVal s2 = counterVal s) := by
  by_cases h1 : it.name = Value.vnone
  · rw [save_of_name_none it s h1] at h
    exact absurd h (by simp)
  by_cases h2 : it.id = 0
  · rw [save_ok_zero it s h1 h2] at h
    injection h with h
    injection h with ha hb
    subst ha
    subst hb
    refine ⟨fun _ => ⟨rfl, ?_⟩, fun hn => absurd h2 hn⟩
    rw [counterVal_set_key]
    unfold counterVal
    rw [Redis.get_set_self]
  · rw [save_ok_nonzero it s h1 h2] at h
    injection h with h
    injection h with ha hb
    subst ha
    subst hb
    refine ⟨fun hz => absurd hz h2, fun _ => ⟨rfl, ?_⟩⟩
    rw [counterVal_set_key]

theorem idxOk_save (it it2 : Item) (s s2 : Store)
    (h : Item.save it s = Except.ok (it2, s2)) (hs : idxOk s = true) :
    idxOk s2 = true := by
  by_cases h1 : it.name = Value.vnone
  · rw [save_of_name_none it s h1] at h
    exact absurd h (by simp)
  by_cases h2 : it.id = 0
  · rw [save_ok_zero it s h1 h2] at h
    injection h with h
    injection h with ha hb
    subst hb
    rw [idxOk_set_key, idxOk_set_count]
  · rw [save_ok_nonzero it s h1 h2] at h
    injection h with h
    injection h with ha hb
    subst hb
    rw [idxOk_set_key]
    exact hs

/-
Elimination lemmas for the validator and the record loader.
-/

theorem okStr_elim {o : Option Value} (h : okStr o = true) :
    ∃ s, o = some (Value.vstr s) := by
  match o with
  | none => simp [okStr] at h
  | some (Value.vstr s) => exact ⟨s, rfl⟩
  | some (Value.vbool b) => simp [okStr] at h
  | some (Value.vint n) => simp [okStr] at h
  | some Value.vnone => simp [okStr] at h

theorem okBool_elim {o : Option Value} (h : okBool o = true) :
    ∃ b, o = some (Value.vbool b) := by
  match o with
  | none => simp [okBool] at h
  | some (Value.vstr s) => simp [okBool] at h
  | some (Value.vbool b) => exact ⟨b, rfl⟩
  | some (Value.vint n) => simp [okBool] at h
  | some Value.vnone => simp [okBool] at h

theorem validate_elim {d : Dict} (h : validate d = true) :
    ∃ ns ps b, d.name = some (Value.vstr ns) ∧ d.price = some (Value.vstr ps) ∧
      d.available = some (Value.vbool b) ∧ d.unknown = false := by
  unfold validate at h
  simp only [Bool.and_eq_true, Bool.not_eq_true'] at h
  obtain ⟨⟨⟨⟨_, hn⟩, hp⟩, hb⟩, hu⟩ := h
  obtain ⟨ns, hns⟩ := okStr_elim hn
  obtain ⟨ps, hps⟩ := okStr_elim hp
  obtain ⟨b, hbb⟩ := okBool_elim hb
  exact ⟨ns, ps, b, hns, hps, hbb, hu⟩

theorem itemFromData_of_validate {d : Dict} (k : Int) (hv : validate d = true)
    (hid : d.id = some (Value.vint k)) :
    itemFromData d = Except.ok ⟨k, d.name.getD Value.vnone,
      d.price.getD Value.vnone, d.available.getD Value.vnone⟩ := by
  unfold itemFromData
  rw [hid]
  simp [Item.deserialize, hv, Item.mkDefault]

theorem entryOk_key_elim {k : Int} {v : RVal}
    (h : entryOk (RKey.key k, v) = true) :
    ∃ d, v = RVal.blob d ∧ validate d = true ∧ d.id = some (Value.vint k) ∧ k ≠ 0 := by
  match v with
  | RVal.count n => simp [entryOk] at h
  | RVal.blob d =>
      simp only [entryOk, Bool.and_eq_true, decide_eq_true_eq] at h
      exact ⟨d, rfl, h.1.1, h.1.2, h.2⟩

theorem validate_serialize {it : Item}
    (hn : ∃ ns, it.name = Value.vstr ns) (hp : ∃ ps, it.price = Value.vstr ps)
    (ha : ∃ b, it.available = Value.vbool b) :
    validate (Item.serialize it) = true := by
  obtain ⟨ns, hns⟩ := hn
  obtain ⟨ps, hps⟩ := hp
  obtain ⟨b, hab⟩ := ha
  simp [validate, Item.serialize, okInt, okStr, okBool, hns, hps, hab]

theorem find_after_set_serialize (it : Item) (s : Store)
    (hn : ∃ ns, it.name = Value.vstr ns) (hp : ∃ ps, it.price = Value.vstr ps)
    (ha : ∃ b, it.available = Value.vbool b) :
    Item.find it.id
        (Redis.set s (RKey.key it.id) (RVal.blob (Item.serialize it))) =
      Except.ok (some it) := by
  unfold Item.find
  rw [Redis.get_set_self]
  show Except.map some (itemFromData (Item.serialize it)) = Except.ok (some it)
  rw [itemFromData_of_validate it.id (validate_serialize hn hp ha) rfl]
  simp [Item.serialize, Except.map]

/-
Claim theorems.
-/

/-- Claim C1, counterexample: an Item whose name is the empty string (not
None) saves successfully and writes a record to the store, so "saving an
item with empty name always fails" is false: `save` only rejects an unset
(None) name. -/
theorem c1_empty_name_saves_cex :
    Item.save ⟨0, Value.vstr "", Value.vstr "9.99", Value.vbool true⟩ [] =
      Except.ok (⟨1, Value.vstr "", Value.vstr "9.99", Value.vbool true⟩,
        [(RKey.idx, RVal.count 1),
         (RKey.key 1, RVal.blob ⟨some (Value.vint 1), some (Value.vstr ""),
            some (Value.vstr "9.99"), some (Value.vbool true), false⟩)]) := by
  rfl

/-- Claim C1, amended: `save` fails with a validation error exactly when
the name is unset (None); the error is raised before anything is written
(an error return carries no updated store).  An item whose name is any
string, the empty string included, saves successfully. -/
theorem c1_save_fails_iff_name_unset (it : Item) (s : Store) :
    (it.name = Value.vnone → Item.save it s = Except.error Err.dataValidation) ∧
    (it.name ≠ Value.vnone → ∃ r, Item.save it s = Except.ok r) :=
  ⟨fun h => save_of_name_none it s h, fun h => save_isOk it s h⟩

/-- Claim C1, witness: the amended theorem at a concrete unset-name item
and a concrete empty-string-name item. -/
theorem c1_save_fails_iff_name_unset_witness :
    Item.save ⟨0, Value.vnone, Value.vstr "x", Value.vbool true⟩ [] =
      Except.error Err.dataValidation ∧
    ∃ r, Item.save ⟨3, Value.vstr "", Value.vnone, Value.vbool true⟩ [] =
      Except.ok r :=
  ⟨(c1_save_fails_iff_name_unset ⟨0, Value.vnone, Value.vstr "x", Value.vbool true⟩ []).1 rfl,
   (c1_save_fails_iff_name_unset ⟨3, Value.vstr "", Value.vnone, Value.vbool true⟩ []).2
     (by decide)⟩

/-- Claim C2, counterexample: an Item with a non-None name but a None price
saves successfully (only the name is checked), yet `find` on the assigned
id then raises a validation error instead of returning the saved fields. -/
theorem c2_save_find_cex :
    Item.save ⟨0, Value.vstr "rex", Value.vnone, Value.vbool true⟩ [] =
      Except.ok (⟨1, Value.vstr "rex", Value.vnone, Value.vbool true⟩,
        [(RKey.idx, RVal.count 1),
         (RKey.key 1, RVal.blob ⟨some (Value.vint 1), some (Value.vstr "rex"),
            some Value.vnone, some (Value.vbool true), false⟩)]) ∧
    Item.find 1
        [(RKey.idx, RVal.count 1),
         (RKey.key 1, RVal.blob ⟨some (Value.vint 1), some (Value.vstr "rex"),
            some Value.vnone, some (Value.vbool true), false⟩)] =
      Except.error Err.dataValidation :=
  ⟨rfl, rfl⟩

/-- Claim C2, amended: for an Item whose name and price are strings and
whose available flag is a boolean (the field types the schema accepts),
after `save` succeeds, `find` on the saved id returns an item with the
same id, name, price and available fields as the saved item.  The
restriction on price and available is forced by the counterexample: `save`
also accepts items that fail the schema, and `find` then raises. -/
theorem c2_save_find_roundtrip (it it2 : Item) (s s2 : Store)
    (hn : ∃ ns, it.name = Value.vstr ns) (hp : ∃ ps, it.price = Value.vstr ps)
    (ha : ∃ b, it.available = Value.vbool b)
    (h : Item.save it s = Except.ok (it2, s2)) :
    Item.find it2.id s2 = Except.ok (some it2) ∧
    it2.name = it.name ∧ it2.price = it.price ∧ it2.available = it.available := by
  have hn0 : it.name ≠ Value.vnone := by
    obtain ⟨ns, hns⟩ := hn
    simp [hns]
  by_cases h2 : it.id = 0
  · rw [save_ok_zero it s hn0 h2] at h
    injection h with h
    injection h with ha2 hb2
    subst ha2
    subst hb2
    exact ⟨find_after_set_serialize _ _ hn hp ha, rfl, rfl, rfl⟩
  · rw [save_ok_nonzero it s hn0 h2] at h
    injection h with h
    injection h with ha2 hb2
    subst ha2
    subst hb2
    exact ⟨find_after_set_serialize _ _ hn hp ha, rfl, rfl, rfl⟩

/-- Claim C2, witness: the round trip at a concrete item and the empty
store. -/
theorem c2_save_find_roundtrip_witness :
    Item.find (1 : Int)
        [(RKey.idx, RVal.count 1),
         (RKey.key 1, RVal.blob ⟨some (Value.vint 1), some (Value.vstr "fido"),
            some (Value.vstr "dog"), some (Value.vbool true), false⟩)] =
      Except.ok (some ⟨1, Value.vstr "fido", Value.vstr "dog", Value.vbool true⟩) ∧
    (⟨1, Value.vstr "fido", Value.vstr "dog", Value.vbool true⟩ : Item).name =
      Value.vstr "fido" := by
  have h := c2_save_find_roundtrip
    ⟨0, Value.vstr "fido", Value.vstr "dog", Value.vbool true⟩
    ⟨1, Value.vstr "fido", Value.vstr "dog", Value.vbool true⟩
    []
    [(RKey.idx, RVal.count 1),
     (RKey.key 1, RVal.blob ⟨some (Value.vint 1), some (Value.vstr "fido"),
        some (Value.vstr "dog"), some (Value.vbool true), false⟩)]
    ⟨"fido", rfl⟩ ⟨"dog", rfl⟩ ⟨true, rfl⟩ rfl
  exact ⟨h.1, h.2.1⟩

theorem runSaves_mono (its : List Item) :
    ∀ s : Store, (∀ x ∈ (runSaves its s).1, counterVal s < x) ∧
      List.Pairwise (· < ·) (runSaves its s).1 := by
  induction its with
  | nil =>
      intro s
      simp [runSaves]
  | cons it rest ih =>
      intro s
      cases h : Item.save it s with
      | error e =>
          have heq : runSaves (it :: rest) s = runSaves rest s := by
            simp [runSaves, h]
          rw [heq]
          exact ih s
      | ok r =>
          obtain ⟨it2, s2⟩ := r
          have hc := counterVal_save it it2 s s2 h
          have heq1 : (runSaves (it :: rest) s).1 =
              if it.id = 0 then it2.id :: (runSaves rest s2).1
              else (runSaves rest s2).1 := by
            simp [runSaves, h]
          obtain ⟨ihb, ihp⟩ := ih s2
          by_cases hz : it.id = 0
          · obtain ⟨hid, hcv⟩ := hc.1 hz
            rw [heq1, if_pos hz]
            constructor
            · intro x hx
              rcases List.mem_cons.mp hx with h1 | h1
              · subst h1
                rw [hid]
                omega
              · have hb := ihb x h1
                rw [hcv] at hb
                omega
            · refine List.Pairwise.cons ?_ ihp
              intro x hx
              have hb := ihb x hx
              rw [hcv] at hb
              rw [hid]
              omega
          · obtain ⟨hit, hcv⟩ := hc.2 hz
            rw [heq1, if_neg hz]
            refine ⟨fun x hx => ?_, ihp⟩
            have hb := ihb x hx
            rw [hcv] at hb
            exact hb

/-- Claim C3: `save` assigns a fresh id from the auto-increment counter
exactly when the item id is 0 (the new id is the incremented counter
value) and keeps a nonzero id unchanged; and across any sequence of saves
from a state whose counter key is wellformed, the ids assigned from the
counter are strictly increasing in order of assignment, hence pairwise
distinct. -/
theorem c3_save_id_assignment_monotonic :
    (∀ (it it2 : Item) (s s2 : Store), Item.save it s = Except.ok (it2, s2) →
        (it.id = 0 → it2.id = counterVal s + 1) ∧
        (it.id ≠ 0 → it2.id = it.id)) ∧
    (∀ (its : List Item) (s : Store), idxOk s = true →
        List.Pairwise (· < ·) (runSaves its s).1 ∧ (runSaves its s).1.Nodup) := by
  constructor
  · intro it it2 s s2 h
    have hc := counterVal_save it it2 s s2 h
    exact ⟨fun hz => (hc.1 hz).1, fun hz => by rw [(hc.2 hz).1]⟩
  · intro its s _
    obtain ⟨_, hp⟩ := runSaves_mono its s
    exact ⟨hp, hp.imp (fun h => ne_of_lt h)⟩

/-- Claim C3, witness: two fresh saves followed by a fixed-id save and
another fresh save assign the counter values 1, 2, 3 in order. -/
theorem c3_save_id_assignment_monotonic_witness :
    ((⟨1, Value.vstr "fido", Value.vstr "dog", Value.vbool true⟩ : Item).id =
        counterVal [] + 1) ∧
    List.Pairwise (· < ·)
      (runSaves [⟨0, Value.vstr "fido", Value.vstr "dog", Value.vbool true⟩,
        ⟨0, Value.vstr "kitty", Value.vstr "cat", Value.vbool true⟩,
        ⟨5, Value.vstr "x", Value.vstr "y", Value.vbool true⟩,
        ⟨0, Value.vstr "rex", Value.vstr "pup", Value.vbool true⟩] []).1 ∧
    (runSaves [⟨0, Value.vstr "fido", Value.vstr "dog", Value.vbool true⟩,
      ⟨0, Value.vstr "kitty", Value.vstr "cat", Value.vbool true⟩,
      ⟨5, Value.vstr "x", Value.vstr "y", Value.vbool true⟩,
      ⟨0, Value.vstr "rex", Value.vstr "pup", Value.vbool true⟩] []).1 = [1, 2, 3] := by
  refine ⟨?_, ?_, by decide⟩
  · exact (c3_save_id_assignment_monotonic.1
      ⟨0, Value.vstr "fido", Value.vstr "dog", Value.vbool true⟩
      ⟨1, Value.vstr "fido", Value.vstr "dog", Value.vbool true⟩
      []
      [(RKey.idx, RVal.count 1),
       (RKey.key 1, RVal.blob ⟨some (Value.vint 1), some (Value.vstr "fido"),
          some (Value.vstr "dog"), some (Value.vbool true), false⟩)]
      rfl).1 rfl
  · exact (c3_save_id_assignment_monotonic.2
      [⟨0, Value.vstr "fido", Value.vstr "dog", Value.vbool true⟩,
       ⟨0, Value.vstr "kitty", Value.vstr "cat", Value.vbool true⟩,
       ⟨5, Value.vstr "x", Value.vstr "y", Value.vbool true⟩,
       ⟨0, Value.vstr "rex", Value.vstr "pup", Value.vbool true⟩] [] rfl).1

/-- Claim C6: `find` after `delete` returns none (the deleted key is gone
from the store), and `find` on an id with no stored record — never saved
or already removed — returns none: the lookup is exact, keyed on the id
alone. -/
theorem c6_delete_then_find_none (it : Item) (s : Store) (item_id : Int) :
    Item.find it.id (Item.delete it s) = Except.ok none ∧
    (Redis.get s (RKey.key item_id) = none →
      Item.find item_id s = Except.ok none) := by
  constructor
  · unfold Item.delete Item.find
    rw [Redis.get_del_self]
  · intro h
    unfold Item.find
    rw [h]

/-- Claim C6, witness: delete-then-find and find-on-absent-id at a
concrete store. -/
theorem c6_delete_then_find_none_witness :
    Item.find (1 : Int)
        (Item.delete ⟨1, Value.vstr "fido", Value.vstr "dog", Value.vbool true⟩
          [(RKey.idx, RVal.count 1),
           (RKey.key 1, RVal.blob ⟨some (Value.vint 1), some (Value.vstr "fido"),
              some (Value.vstr "dog"), some (Value.vbool true), false⟩)]) =
      Except.ok none ∧
    Item.find (7 : Int) [(RKey.idx, RVal.count 1)] = Except.ok none := by
  have h1 := c6_delete_then_find_none
    ⟨1, Value.vstr "fido", Value.vstr "dog", Value.vbool true⟩
    [(RKey.idx, RVal.count 1),
     (RKey.key 1, RVal.blob ⟨some (Value.vint 1), some (Value.vstr "fido"),
        some (Value.vstr "dog"), some (Value.vbool true), false⟩)] 1
  have h2 := c6_delete_then_find_none
    ⟨1, Value.vstr "fido", Value.vstr "dog", Value.vbool true⟩
    [(RKey.idx, RVal.count 1)] 7
  exact ⟨h1.1, h2.2 rfl⟩

theorem find_of_get_blob {s : Store} {item_id : Int} {d : Dict}
    (hget : Redis.get s (RKey.key item_id) = some (RVal.blob d))
    (hv : validate d = true) (hid : d.id = some (Value.vint item_id)) :
    Item.find item_id s = Except.ok (some ⟨item_id, d.name.getD Value.vnone,
      d.price.getD Value.vnone, d.available.getD Value.vnone⟩) := by
  unfold Item.find
  rw [hget]
  show Except.map some (itemFromData d) = _
  rw [itemFromData_of_validate item_id hv hid]
  rfl

/-- Claim C4: the purchase endpoint returns 404 and leaves the store
unchanged when no record is stored under the id; when the stored record is
wellformed and its available field is False it returns 400 with the
"is not available" message and leaves the store unchanged; and when the
available field is True it rewrites the record under the same (nonzero) id
with available set to False and returns 200.  The Content-Type argument is
arbitrary throughout (the handler never reads it). -/
theorem c4_purchase_cases (ct : String) (item_id : Int) (s : Store) :
    (Redis.get s (RKey.key item_id) = none →
        purchase_items ct item_id s = (⟨404, notFoundMsg item_id⟩, s)) ∧
    (∀ d, Redis.get s (RKey.key item_id) = some (RVal.blob d) →
        validate d = true → d.id = some (Value.vint item_id) →
        (d.available = some (Value.vbool false) →
            purchase_items ct item_id s = (⟨400, notAvailableMsg item_id⟩, s)) ∧
        (d.available = some (Value.vbool true) → item_id ≠ 0 →
            purchase_items ct item_id s = (⟨200, ""⟩,
              Redis.set s (RKey.key item_id)
                (RVal.blob { d with available := some (Value.vbool false) })))) := by
  constructor
  · intro h
    have hf : Item.find item_id s = Except.ok none := by
      unfold Item.find
      rw [h]
    unfold purchase_items
    rw [hf]
  · intro d hget hv hid
    obtain ⟨ns, ps, b, hns, hps, hab, hu⟩ := validate_elim hv
    have hf := find_of_get_blob hget hv hid
    rw [hns, hps, hab] at hf
    constructor
    · intro hfalse
      have hb : b = false := by
        rw [hab] at hfalse
        injection hfalse with hfalse
        injection hfalse
      subst hb
      unfold purchase_items
      rw [hf]
      rfl
    · intro htrue hnz
      have hb : b = true := by
        rw [hab] at htrue
        injection htrue with htrue
        injection htrue
      subst hb
      have hd : ({ d with available := some (Value.vbool false) } : Dict) =
          ⟨some (Value.vint item_id), some (Value.vstr ns), some (Value.vstr ps),
            some (Value.vbool false), false⟩ := by
        cases d
        simp_all
      have hsave := save_ok_nonzero
        ⟨item_id, Value.vstr ns, Value.vstr ps, Value.vbool false⟩ s (by simp) hnz
      unfold purchase_items
      rw [hf]
      show (match Item.save ⟨item_id, Value.vstr ns, Value.vstr ps, Value.vbool false⟩ s with
        | Except.error e => (errorResp e, s)
        | Except.ok (_, s2) => ((⟨200, ""⟩ : Resp), s2)) = _
      rw [hsave, hd]
      rfl

/-- Claim C4, witness: the three purchase outcomes at concrete stores
(absent id, stored unavailable item, stored available item), under an
arbitrary concrete Content-Type. -/
theorem c4_purchase_cases_witness :
    purchase_items "application/json" 7 [] = (⟨404, notFoundMsg 7⟩, []) ∧
    purchase_items "application/json" 1
        [(RKey.idx, RVal.count 1),
         (RKey.key 1, RVal.blob ⟨some (Value.vint 1), some (Value.vstr "fido"),
            some (Value.vstr "dog"), some (Value.vbool false), false⟩)] =
      (⟨400, notAvailableMsg 1⟩,
       [(RKey.idx, RVal.count 1),
        (RKey.key 1, RVal.blob ⟨some (Value.vint 1), some (Value.vstr "fido"),
           some (Value.vstr "dog"), some (Value.vbool false), false⟩)]) ∧
    purchase_items "application/json" 1
        [(RKey.idx, RVal.count 1),
         (RKey.key 1, RVal.blob ⟨some (Value.vint 1), some (Value.vstr "fido"),
            some (Value.vstr "dog"), some (Value.vbool true), false⟩)] =
      (⟨200, ""⟩,
       Redis.set
         [(RKey.idx, RVal.count 1),
          (RKey.key 1, RVal.blob ⟨some (Value.vint 1), some (Value.vstr "fido"),
             some (Value.vstr "dog"), some (Value.vbool true), false⟩)]
         (RKey.key 1)
         (RVal.blob ⟨some (Value.vint 1), some (Value.vstr "fido"),
            some (Value.vstr "dog"), some (Value.vbool false), false⟩)) := by
  refine ⟨(c4_purchase_cases "application/json" 7 []).1 rfl, ?_, ?_⟩
  · exact ((c4_purchase_cases "application/json" 1
      [(RKey.idx, RVal.count 1),
       (RKey.key 1, RVal.blob ⟨some (Value.vint 1), some (Value.vstr "fido"),
          some (Value.vstr "dog"), some (Value.vbool false), false⟩)]).2
      ⟨some (Value.vint 1), some (Value.vstr "fido"), some (Value.vstr "dog"),
        some (Value.vbool false), false⟩ rfl (by decide) rfl).1 rfl
  · exact ((c4_purchase_cases "application/json" 1
      [(RKey.idx, RVal.count 1),
       (RKey.key 1, RVal.blob ⟨some (Value.vint 1), some (Value.vstr "fido"),
          some (Value.vstr "dog"), some (Value.vbool true), false⟩)]).2
      ⟨some (Value.vint 1), some (Value.vstr "fido"), some (Value.vstr "dog"),
        some (Value.vbool true), false⟩ rfl (by decide) rfl).2 rfl (by decide)

/-- Claim C9: DELETE /items/{id}, on any store whose record at that id
(if any) is wellformed, returns 204 whether or not the record exists —
never a 404 — and the resulting store is exactly the old store with at most
the key equal to that id removed; in particular, deleting a nonexistent id
is a no-op that leaves the store unchanged. -/
theorem c9_delete_endpoint (item_id : Int) (s : Store)
    (h : recOkAt s item_id = true) :
    delete_items item_id s = (⟨204, ""⟩, Redis.del s (RKey.key item_id)) ∧
    (Redis.get s (RKey.key item_id) = none →
        delete_items item_id s = (⟨204, ""⟩, s)) := by
  cases hget : Redis.get s (RKey.key item_id) with
  | none =>
      have hf : Item.find item_id s = Except.ok none := by
        unfold Item.find
        rw [hget]
      have hdel : Redis.del s (RKey.key item_id) = s :=
        Redis.del_of_get_none s (RKey.key item_id) hget
      constructor
      · unfold delete_items
        rw [hf, hdel]
      · intro _
        unfold delete_items
        rw [hf]
  | some v =>
      unfold recOkAt at h
      rw [hget] at h
      obtain ⟨d, hvd, hv, hid, _⟩ := entryOk_key_elim h
      subst hvd
      obtain ⟨ns, ps, b, hns, hps, hab, _⟩ := validate_elim hv
      have hf := find_of_get_blob hget hv hid
      rw [hns, hps, hab] at hf
      constructor
      · unfold delete_items
        rw [hf]
        rfl
      · intro h2
        simp at h2

/-- Claim C9, witness: deleting a stored id and a nonexistent id, both
returning 204. -/
theorem c9_delete_endpoint_witness :
    delete_items 1
        [(RKey.idx, RVal.count 1),
         (RKey.key 1, RVal.blob ⟨some (Value.vint 1), some (Value.vstr "fido"),
            some (Value.vstr "dog"), some (Value.vbool true), false⟩)] =
      (⟨204, ""⟩,
       Redis.del
         [(RKey.idx, RVal.count 1),
          (RKey.key 1, RVal.blob ⟨some (Value.vint 1), some (Value.vstr "fido"),
             some (Value.vstr "dog"), some (Value.vbool true), false⟩)]
         (RKey.key 1)) ∧
    delete_items 7 [(RKey.idx, RVal.count 1)] =
      (⟨204, ""⟩, [(RKey.idx, RVal.count 1)]) := by
  refine ⟨?_, ?_⟩
  · exact (c9_delete_endpoint 1
      [(RKey.idx, RVal.count 1),
       (RKey.key 1, RVal.blob ⟨some (Value.vint 1), some (Value.vstr "fido"),
          some (Value.vstr "dog"), some (Value.vbool true), false⟩)] (by decide)).1
  · exact (c9_delete_endpoint 7 [(RKey.idx, RVal.count 1)] (by decide)).2 rfl

theorem attr_of_validate {d : Dict} (hv : validate d = true) (a : Attr) :
    ∃ w, Dict.attr d a = some w := by
  obtain ⟨ns, ps, b, hns, hps, hab, _⟩ := validate_elim hv
  cases a with
  | name => exact ⟨_, hns⟩
  | price => exact ⟨_, hps⟩
  | available => exact ⟨_, hab⟩

/-- Claim C8, counterexample: a store state reachable by a single `save`
(an item with None price passes the name-only check) on which `all()`
raises a validation error instead of returning one item per stored record
key, so the claim fails on that store state. -/
theorem c8_all_raises_cex :
    Item.save ⟨0, Value.vstr "bird", Value.vnone, Value.vbool true⟩ [] =
      Except.ok (⟨1, Value.vstr "bird", Value.vnone, Value.vbool true⟩,
        [(RKey.idx, RVal.count 1),
         (RKey.key 1, RVal.blob ⟨some (Value.vint 1), some (Value.vstr "bird"),
            some Value.vnone, some (Value.vbool true), false⟩)]) ∧
    Item.all
        [(RKey.idx, RVal.count 1),
         (RKey.key 1, RVal.blob ⟨some (Value.vint 1), some (Value.vstr "bird"),
            some Value.vnone, some (Value.vbool true), false⟩)] =
      Except.error Err.dataValidation :=
  ⟨rfl, rfl⟩

/-- Claim C8, amended: on every store state whose entries are wellformed
(each stored record passes the schema — the invariant of states written
through validated payloads), `all()` returns one item per stored record
key in iteration order, skipping the auto-increment counter key, with each
item's fields equal to the stored record's fields; the counter key is
never returned as an item (every returned item corresponds to a non-index
key). -/
theorem c8_all_one_item_per_record (s : Store)
    (hwf : ∀ p ∈ s, entryOk p = true) :
    ∃ l, Item.all s = Except.ok l ∧
      List.Forall₂ (fun (p : RKey × RVal) (it : Item) =>
          ∃ k d, p = (RKey.key k, RVal.blob d) ∧ it.id = k ∧
            some it.name = d.name ∧ some it.price = d.price ∧
            some it.available = d.available)
        (s.filter (fun p => decide (p.1 ≠ RKey.idx))) l := by
  revert hwf
  induction s with
  | nil =>
      intro _
      exact ⟨[], rfl, by simp⟩
  | cons p t ih =>
      intro hwf
      have hwt : ∀ q ∈ t, entryOk q = true :=
        fun q hq => hwf q (List.mem_cons_of_mem p hq)
      have hp : entryOk p = true := hwf p (List.mem_cons_self p t)
      obtain ⟨l, hl, hfa⟩ := ih hwt
      obtain ⟨k0, v0⟩ := p
      cases k0 with
      | idx =>
          refine ⟨l, ?_, ?_⟩
          · simpa [Item.all] using hl
          · simpa using hfa
      | key k =>
          obtain ⟨d, hvd, hv, hid, hk0⟩ := entryOk_key_elim hp
          subst hvd
          obtain ⟨ns, ps, b, hns, hps, hab, hu⟩ := validate_elim hv
          have hload := itemFromData_of_validate k hv hid
          refine ⟨⟨k, d.name.getD Value.vnone, d.price.getD Value.vnone,
            d.available.getD Value.vnone⟩ :: l, ?_, ?_⟩
          · simp only [Item.all]
            rw [hload, hl]
            rfl
          · have hfil : List.filter (fun p => decide (p.1 ≠ RKey.idx))
                ((RKey.key k, RVal.blob d) :: t) =
                (RKey.key k, RVal.blob d) ::
                  List.filter (fun p => decide (p.1 ≠ RKey.idx)) t := by
              simp
            rw [hfil]
            refine List.Forall₂.cons ⟨k, d, rfl, rfl, ?_, ?_, ?_⟩ hfa
            · rw [hns]
              rfl
            · rw [hps]
              rfl
            · rw [hab]
              rfl

/-- Claim C8, witness: the amended theorem on a concrete wellformed store
with a counter entry and two records. -/
theorem c8_all_one_item_per_record_witness :
    (∀ p ∈ ([(RKey.idx, RVal.count 2),
        (RKey.key 1, RVal.blob ⟨some (Value.vint 1), some (Value.vstr "fido"),
           some (Value.vstr "dog"), some (Value.vbool true), false⟩),
        (RKey.key 2, RVal.blob ⟨some (Value.vint 2), some (Value.vstr "kitty"),
           some (Value.vstr "cat"), some (Value.vbool false), false⟩)] : Store),
      entryOk p = true) ∧
    (∃ l, Item.all
        [(RKey.idx, RVal.count 2),
         (RKey.key 1, RVal.blob ⟨some (Value.vint 1), some (Value.vstr "fido"),
            some (Value.vstr "dog"), some (Value.vbool true), false⟩),
         (RKey.key 2, RVal.blob ⟨some (Value.vint 2), some (Value.vstr "kitty"),
            some (Value.vstr "cat"), some (Value.vbool false), false⟩)] =
        Except.ok l ∧
      List.Forall₂ (fun (p : RKey × RVal) (it : Item) =>
          ∃ k d, p = (RKey.key k, RVal.blob d) ∧ it.id = k ∧
            some it.name = d.name ∧ some it.price = d.price ∧
            some it.available = d.available)
        (([(RKey.idx, RVal.count 2),
           (RKey.key 1, RVal.blob ⟨some (Value.vint 1), some (Value.vstr "fido"),
              some (Value.vstr "dog"), some (Value.vbool true), false⟩),
           (RKey.key 2, RVal.blob ⟨some (Value.vint 2), some (Value.vstr "kitty"),
              some (Value.vstr "cat"), some (Value.vbool false), false⟩)] : Store).filter
          (fun p => decide (p.1 ≠ RKey.idx))) l) ∧
    Item.all
        [(RKey.idx, RVal.count 2),
         (RKey.key 1, RVal.blob ⟨some (Value.vint 1), some (Value.vstr "fido"),
            some (Value.vstr "dog"), some (Value.vbool true), false⟩),
         (RKey.key 2, RVal.blob ⟨some (Value.vint 2), some (Value.vstr "kitty"),
            some (Value.vstr "cat"), some (Value.vbool false), false⟩)] =
      Except.ok [⟨1, Value.vstr "fido", Value.vstr "dog", Value.vbool true⟩,
        ⟨2, Value.vstr "kitty", Value.vstr "cat", Value.vbool false⟩] := by
  refine ⟨by decide, ?_, rfl⟩
  exact c8_all_one_item_per_record
    [(RKey.idx, RVal.count 2),
     (RKey.key 1, RVal.blob ⟨some (Value.vint 1), some (Value.vstr "fido"),
        some (Value.vstr "dog"), some (Value.vbool true), false⟩),
     (RKey.key 2, RVal.blob ⟨some (Value.vint 2), some (Value.vstr "kitty"),
        some (Value.vstr "cat"), some (Value.vbool false), false⟩)] (by decide)

theorem findByAux_spec (a : Attr) (crit : Value) :
    ∀ (s : Store), (∀ p ∈ s, entryOk p = true) →
      ∃ l, findByAux a crit s = Except.ok l ∧
        ∀ it : Item, it ∈ l ↔ ∃ k d, (RKey.key k, RVal.blob d) ∈ s ∧
            itemFromData d = Except.ok it ∧
            ∃ w, Dict.attr d a = some w ∧ Value.lower w = crit := by
  intro s
  induction s with
  | nil =>
      intro _
      refine ⟨[], rfl, fun it => ?_⟩
      simp
  | cons p t ih =>
      intro hwf
      have hwt : ∀ q ∈ t, entryOk q = true :=
        fun q hq => hwf q (List.mem_cons_of_mem p hq)
      have hp : entryOk p = true := hwf p (List.mem_cons_self p t)
      obtain ⟨l, hl, hiff⟩ := ih hwt
      obtain ⟨k0, v0⟩ := p
      cases k0 with
      | idx =>
          refine ⟨l, ?_, fun it => ?_⟩
          · simpa [findByAux] using hl
          · rw [hiff it]
            constructor
            · rintro ⟨k, d, hm, hrest⟩
              exact ⟨k, d, List.mem_cons_of_mem _ hm, hrest⟩
            · rintro ⟨k, d, hm, hrest⟩
              rcases List.mem_cons.mp hm with hm | hm
              · injection hm with h1 h2
                exact RKey.noConfusion h1
              · exact ⟨k, d, hm, hrest⟩
      | key k =>
          obtain ⟨d, hvd, hv, hid, hk0⟩ := entryOk_key_elim hp
          subst hvd
          obtain ⟨w0, hw0⟩ := attr_of_validate hv a
          have hload := itemFromData_of_validate k hv hid
          by_cases hmatch : Value.lower w0 = crit
          · refine ⟨⟨k, d.name.getD Value.vnone, d.price.getD Value.vnone,
              d.available.getD Value.vnone⟩ :: l, ?_, fun it => ?_⟩
            · simp only [findByAux]
              rw [hw0]
              show (if Value.lower w0 = crit then
                  do
                    let it ← itemFromData d
                    let rest ← findByAux a crit t
                    Except.ok (it :: rest)
                else findByAux a crit t) = _
              rw [if_pos hmatch]
              show (do
                let it ← itemFromData d
                let rest ← findByAux a crit t
                Except.ok (it :: rest)) = _
              rw [hload, hl]
              rfl
            · constructor
              · intro hmem
                rcases List.mem_cons.mp hmem with hit | hit
                · subst hit
                  exact ⟨k, d, List.mem_cons_self _ _, hload, w0, hw0, hmatch⟩
                · obtain ⟨k2, d2, hm2, hfd2, w2, hw2, hc2⟩ := (hiff it).mp hit
                  exact ⟨k2, d2, List.mem_cons_of_mem _ hm2, hfd2, w2, hw2, hc2⟩
              · rintro ⟨k2, d2, hm2, hfd2, w2, hw2, hc2⟩
                rcases List.mem_cons.mp hm2 with hm2 | hm2
                · injection hm2 with h1 h2
                  injection h1 with h1
                  injection h2 with h2
                  subst h1
                  subst h2
                  rw [hload] at hfd2
                  injection hfd2 with hfd2
                  rw [← hfd2]
                  exact List.mem_cons_self _ _
                · exact List.mem_cons_of_mem _
                    ((hiff it).mpr ⟨k2, d2, hm2, hfd2, w2, hw2, hc2⟩)
          · refine ⟨l, ?_, fun it => ?_⟩
            · simp only [findByAux]
              rw [hw0]
              show (if Value.lower w0 = crit then
                  do
                    let it ← itemFromData d
                    let rest ← findByAux a crit t
                    Except.ok (it :: rest)
                else findByAux a crit t) = _
              rw [if_neg hmatch]
              exact hl
            · rw [hiff it]
              constructor
              · rintro ⟨k2, d2, hm2, hrest⟩
                exact ⟨k2, d2, List.mem_cons_of_mem _ hm2, hrest⟩
              · rintro ⟨k2, d2, hm2, hfd2, w2, hw2, hc2⟩
                rcases List.mem_cons.mp hm2 with hm2 | hm2
                · injection hm2 with h1 h2
                  injection h1 with h1
                  injection h2 with h2
                  subst h1
                  subst h2
                  rw [hw0] at hw2
                  injection hw2 with hw2
                  subst hw2
                  exact absurd hc2 hmatch
                · exact ⟨k2, d2, hm2, hfd2, w2, hw2, hc2⟩

/-- Claim C5: on every store of wellformed records, `find_by` with a string
query value returns exactly the stored records whose attribute value is
equal to the query up to ASCII case (both sides lowercased before
comparison): every returned item corresponds to a stored record matching
case-insensitively, and every case-insensitive match is returned. -/
theorem c5_find_by_case_insensitive (a : Attr) (v : String) (s : Store)
    (hwf : ∀ p ∈ s, entryOk p = true) :
    ∃ l, Item.find_by a (Value.vstr v) s = Except.ok l ∧
      ∀ it : Item, it ∈ l ↔ ∃ k d, (RKey.key k, RVal.blob d) ∈ s ∧
          itemFromData d = Except.ok it ∧
          ∃ w, Dict.attr d a = some w ∧
            Value.lower w = Value.lower (Value.vstr v) :=
  findByAux_spec a (Value.lower (Value.vstr v)) s hwf

/-- Claim C5, witness: querying name=fido on a store whose record is named
Fido; the theorem applies, and the query concretely returns exactly the
stored Fido item. -/
theorem c5_find_by_case_insensitive_witness :
    (∃ l, Item.find_by Attr.name (Value.vstr "fido")
        [(RKey.idx, RVal.count 1),
         (RKey.key 1, RVal.blob ⟨some (Value.vint 1), some (Value.vstr "Fido"),
            some (Value.vstr "DOG"), some (Value.vbool true), false⟩)] =
        Except.ok l ∧
      ∀ it : Item, it ∈ l ↔ ∃ k d,
          (RKey.key k, RVal.blob d) ∈
            ([(RKey.idx, RVal.count 1),
              (RKey.key 1, RVal.blob ⟨some (Value.vint 1), some (Value.vstr "Fido"),
                 some (Value.vstr "DOG"), some (Value.vbool true), false⟩)] : Store) ∧
          itemFromData d = Except.ok it ∧
          ∃ w, Dict.attr d Attr.name = some w ∧
            Value.lower w = Value.lower (Value.vstr "fido")) ∧
    Item.find_by Attr.name (Value.vstr "fido")
        [(RKey.idx, RVal.count 1),
         (RKey.key 1, RVal.blob ⟨some (Value.vint 1), some (Value.vstr "Fido"),
            some (Value.vstr "DOG"), some (Value.vbool true), false⟩)] =
      Except.ok [⟨1, Value.vstr "Fido", Value.vstr "DOG", Value.vbool true⟩] := by
  constructor
  · exact c5_find_by_case_insensitive Attr.name "fido"
      [(RKey.idx, RVal.count 1),
       (RKey.key 1, RVal.blob ⟨some (Value.vint 1), some (Value.vstr "Fido"),
          some (Value.vstr "DOG"), some (Value.vbool true), false⟩)] (by decide)
  · rfl

/-- Claim C7, counterexample: the purchase endpoint never inspects the
Content-Type header — a PUT /items/1/purchase with Content-Type text/plain
on an available item returns 200 and modifies the stored record, so
"every mutating endpoint rejects a mismatched Content-Type with 415 (or
400) without modifying any stored item" is false. -/
theorem c7_purchase_ignores_content_type_cex :
    purchase_items "text/plain" 1
        [(RKey.idx, RVal.count 1),
         (RKey.key 1, RVal.blob ⟨some (Value.vint 1), some (Value.vstr "fido"),
            some (Value.vstr "dog"), some (Value.vbool true), false⟩)] =
      (⟨200, ""⟩,
       [(RKey.idx, RVal.count 1),
        (RKey.key 1, RVal.blob ⟨some (Value.vint 1), some (Value.vstr "fido"),
           some (Value.vstr "dog"), some (Value.vbool false), false⟩)]) ∧
    ([(RKey.idx, RVal.count 1),
      (RKey.key 1, RVal.blob ⟨some (Value.vint 1), some (Value.vstr "fido"),
         some (Value.vstr "dog"), some (Value.vbool false), false⟩)] : Store) ≠
      [(RKey.idx, RVal.count 1),
       (RKey.key 1, RVal.blob ⟨some (Value.vint 1), some (Value.vstr "fido"),
          some (Value.vstr "dog"), some (Value.vbool true), false⟩)] := by
  exact ⟨rfl, by decide⟩

/-- Claim C7, amended: only PUT /items/{id} enforces the Content-Type —
any header other than application/json yields 415 (and a missing header
yields 400 via werkzeug) with the store unchanged; POST /items with a
Content-Type that is neither the form type nor a JSON mimetype yields 400
with the store unchanged (the body is not parsed as JSON, so validation
fails); PUT /items/{id}/purchase does not inspect the Content-Type at
all. -/
theorem c7_content_type_enforcement (item_id : Int) (ct : String)
    (body : Option PyObj) (fd : Option (String × String)) (s : Store) :
    (ct ≠ "application/json" →
        update_items item_id (some ct) body s = (⟨415, contentTypeMsg⟩, s)) ∧
    (update_items item_id none body s = (badRequestResp, s)) ∧
    (ct ≠ "application/x-www-form-urlencoded" → isJsonMime ct = false →
        create_items (some ct) fd body s = (⟨400, "Bad Request"⟩, s)) := by
  refine ⟨fun h => ?_, rfl, fun h1 h2 => ?_⟩
  · simp [update_items, h]
  · cases body with
    | none => simp [create_items, h1, h2, createWith, Item.deserialize, errorResp]
    | some b => simp [create_items, h1, h2, createWith, Item.deserialize, errorResp]

/-- Claim C7, witness: the amended behaviors at Content-Type text/plain
(and a missing header) on the empty store. -/
theorem c7_content_type_enforcement_witness :
    update_items 1 (some "text/plain") none [] = (⟨415, contentTypeMsg⟩, []) ∧
    update_items 1 none none [] = (badRequestResp, []) ∧
    create_items (some "text/plain") none none [] = (⟨400, "Bad Request"⟩, []) :=
  ⟨(c7_content_type_enforcement 1 "text/plain" none none []).1 (by decide),
   (c7_content_type_enforcement 1 "text/plain" none none []).2.1,
   (c7_content_type_enforcement 1 "text/plain" none none []).2.2 (by decide) (by decide)⟩

/-- Claim C10: `deserialize` updates only the name, price and available
fields — the id is kept from the receiving item, and on success the new
field values are exactly those of the validated input dict; on an invalid
input (a non-dict, or a dict failing the schema) it raises a validation
error, and no field is changed (in the source the assignments all sit
after the validation check, so the object is untouched on the raise). -/
theorem c10_deserialize_frame (it : Item) (data : PyObj) :
    (∀ it2, Item.deserialize it data = Except.ok it2 →
        it2.id = it.id ∧ ∃ d, data = PyObj.dict d ∧ validate d = true ∧
          some it2.name = d.name ∧ some it2.price = d.price ∧
          some it2.available = d.available) ∧
    ((∀ d, data = PyObj.dict d → validate d = false) →
        Item.deserialize it data = Except.error Err.dataValidation) := by
  constructor
  · intro it2 h
    match data with
    | PyObj.nonDict => simp [Item.deserialize] at h
    | PyObj.dict d =>
        simp only [Item.deserialize] at h
        by_cases hv : validate d = true
        · rw [if_pos hv] at h
          injection h with h
          subst h
          obtain ⟨ns, ps, b, hns, hps, hab, _⟩ := validate_elim hv
          exact ⟨rfl, d, rfl, hv, by simp [hns], by simp [hps], by simp [hab]⟩
        · rw [if_neg hv] at h
          simp at h
  · intro hinv
    match data with
    | PyObj.nonDict => rfl
    | PyObj.dict d => simp [Item.deserialize, hinv d rfl]

/-- Claim C10, witness: the frame condition at a concrete item and dict,
and the error case at a non-dict input. -/
theorem c10_deserialize_frame_witness :
    ((⟨5, Value.vstr "kitty", Value.vstr "cat", Value.vbool true⟩ : Item).id =
        (Item.mkDefault 5).id ∧
      ∃ d, PyObj.dict ⟨some (Value.vint 1), some (Value.vstr "kitty"),
          some (Value.vstr "cat"), some (Value.vbool true), false⟩ = PyObj.dict d ∧
        validate d = true ∧
        some (⟨5, Value.vstr "kitty", Value.vstr "cat", Value.vbool true⟩ : Item).name = d.name ∧
        some (⟨5, Value.vstr "kitty", Value.vstr "cat", Value.vbool true⟩ : Item).price = d.price ∧
        some (⟨5, Value.vstr "kitty", Value.vstr "cat", Value.vbool true⟩ : Item).available = d.available) ∧
    Item.deserialize (Item.mkDefault 5) PyObj.nonDict =
      Except.error Err.dataValidation := by
  constructor
  · exact (c10_deserialize_frame (Item.mkDefault 5)
      (PyObj.dict ⟨some (Value.vint 1), some (Value.vstr "kitty"),
        some (Value.vstr "cat"), some (Value.vbool true), false⟩)).1
      ⟨5, Value.vstr "kitty", Value.vstr "cat", Value.vbool true⟩ rfl
  · exact (c10_deserialize_frame (Item.mkDefault 5) PyObj.nonDict).2
      (fun d h => by cases h)

end ItemStore
